/-
Verification of the procedural plant-growth engine (L-system grammar,
turtle interpreter, physics-graph builder, growth scheduler) of the
digital-garden repository.

Shallow embedding conventions:
* JavaScript numbers are modelled as exact rationals (ℚ); the claims
  settled here do not depend on floating-point rounding.
* `random()` draws are modelled by an explicit stream `rng : Nat → ℚ`
  together with a counter that is threaded through the computation in
  the order the source consumes draws.
* `cos`/`sin` (used only by the turtle to advance the pen) are passed in
  as abstract functions `cosF sinF : ℚ → ℚ`, since the trigonometric
  values themselves play no role in any claim.
* Euclidean lengths (square roots) are kept symbolic in spring records
  (`RestLen`), because ℚ has no square root; zero-length tests in the
  source are decided on squared lengths, which is equivalent.
* Particle (point-mass) object identity is modelled by a numeric `id`
  allocated from a counter in the physics state.
-/
import Mathlib

/-- p5.js `map(v, a, b, c, d)`: unclamped linear interpolation. -/
def pmap (v a b c d : ℚ) : ℚ := (v - a) / (b - a) * (d - c) + c

/-- JS `x.toFixed(2)` used as a dedup key: round to the nearest multiple
of 1/100, represented by the integer numerator. -/
def toFixed2 (q : ℚ) : ℤ := round (100 * q)

/-- Coordinate key `"x.toFixed(2),y.toFixed(2)"` of a segment endpoint. -/
def segKey (x y : ℚ) : ℤ × ℤ := (toFixed2 x, toFixed2 y)

/-- JS `segment.thickness || 1.0` (0 is falsy). -/
def thicknessOr1 (t : ℚ) : ℚ := if t = 0 then 1 else t

/-! ## L-system grammar engine (src/lsystem.js) -/

/-- Right-hand side of an L-system production rule: absent, a literal
replacement string, a weighted list of `(replacement, probability)`
pairs, or a procedural generator (modelled as a function of the rng
counter returning the replacement and the advanced counter). -/
inductive RuleRhs where
  | noRule : RuleRhs
  | lit : List Char → RuleRhs
  | weighted : List (List Char × ℚ) → RuleRhs
  | fn : (Nat → List Char × Nat) → RuleRhs

/-- Grammar configuration (`config` of the `LSystem` constructor):
start string, rule table, requested iteration count. -/
structure GrammarSpec where
  axiomStr : List Char
  rules : Char → RuleRhs
  iterations : Nat

/-- Cumulative-probability walk of a weighted rule: pick the first
bucket whose cumulative sum exceeds the draw `r`; keep the symbol
unchanged if none does. -/
def weightedWalk (r : ℚ) (c : Char) (cum : ℚ) : List (List Char × ℚ) → List Char
  | [] => [c]
  | (s, pr) :: rest => if r < cum + pr then s else weightedWalk r c (cum + pr) rest

/-- Replace one symbol using its rule, consuming rng draws as the
source does (one draw for a weighted rule, none for a literal). -/
def applyRule (rules : Char → RuleRhs) (rng : Nat → ℚ) (c : Char) (k : Nat) :
    List Char × Nat :=
  match rules c with
  | .noRule => ([c], k)
  | .lit s => (s, k)
  | .weighted l => (weightedWalk (rng k) c 0 l, k + 1)
  | .fn f => f k

/-- Build the next generation by replacing each symbol in order. -/
def rewriteOnce (rules : Char → RuleRhs) (rng : Nat → ℚ) :
    List Char → Nat → List Char × Nat
  | [], k => ([], k)
  | c :: rest, k =>
    let r1 := applyRule rules rng c k
    let r2 := rewriteOnce rules rng rest r1.2
    (r1.1 ++ r2.1, r2.2)

/-- The iteration loop of `LSystem.generate`: after each generation, if
the intermediate string exceeds 2000 symbols it is truncated to 2000
and the loop stops. -/
def genLoop (rules : Char → RuleRhs) (rng : Nat → ℚ) :
    Nat → List Char → Nat → List Char × Nat
  | 0, s, k => (s, k)
  | n + 1, s, k =>
    let r := rewriteOnce rules rng s k
    if 2000 < r.1.length then (r.1.take 2000, r.2)
    else genLoop rules rng n r.1 r.2

/-- Constructor clamp `Math.min(config.iterations || 2, 4)` (0 is falsy
and defaults to 2). -/
def LSystem.iterClamp (n : Nat) : Nat := min (if n = 0 then 2 else n) 4

/-- `LSystem.generate`: expand the start string through the clamped
number of iterations; returns the production and the rng counter. -/
def LSystem.generate (cfg : GrammarSpec) (rng : Nat → ℚ) : List Char × Nat :=
  genLoop cfg.rules rng (LSystem.iterClamp cfg.iterations) cfg.axiomStr 0

/-! ## Turtle interpreter (`LSystem.process`, src/lsystem.js) -/

/-- One drawn segment: endpoints in plant-local coordinates, branch
depth (stack nesting at creation), thickness multiplier, heading at
creation, color, and the root flag. -/
structure Segment where
  x1 : ℚ
  y1 : ℚ
  x2 : ℚ
  y2 : ℚ
  depth : Nat
  thickness : ℚ
  originalAngle : ℚ
  col : Nat
  isRoot : Bool
deriving DecidableEq

/-- A fruit anchor emitted by the `*` symbol. -/
structure Fruit where
  x : ℚ
  y : ℚ
  size : ℚ
  col : Nat
  fangle : ℚ
deriving DecidableEq

/-- Interpreter configuration fields of the `LSystem` object used by
`process`. -/
structure LConfig where
  colorVariation : Bool := false
  fruitProbability : ℚ := 0
  stemColor : Nat := 0
  fruitColor : Nat := 1

/-- Saved pen state pushed by `[`. -/
structure TFrame where
  x : ℚ
  y : ℚ
  angle : ℚ
  thickness : ℚ
  col : Nat
deriving DecidableEq

/-- Full turtle state: pen position, heading, the interpreter's mutable
turn step (`this.angle`), thickness, color, saved-state stack (head =
top), accumulated segments and fruits, and the rng counter. -/
structure TState where
  x : ℚ
  y : ℚ
  angle : ℚ
  angleStep : ℚ
  thickness : ℚ
  col : Nat
  stack : List TFrame
  segments : List Segment
  fruits : List Fruit
  k : Nat
deriving DecidableEq

/-- p5.js `random(a, b)`: `a + (b - a) * u` with `u` the next draw. -/
def randIn (rng : Nat → ℚ) (k : Nat) (a b : ℚ) : ℚ := a + (b - a) * rng k

/-- `F`/`G`: advance the pen by step 10 along the heading and emit a
segment tagged with the current depth, thickness, heading and color;
`isRoot` holds only with an empty stack and a start at or below the
baseline (`oldY >= -1`). -/
def stepDraw (cosF sinF : ℚ → ℚ) (st : TState) : TState :=
  let nx := st.x + cosF st.angle * 10
  let ny := st.y + sinF st.angle * 10
  { st with
    x := nx, y := ny,
    segments := st.segments ++ [{ x1 := st.x, y1 := st.y, x2 := nx, y2 := ny,
                                  depth := st.stack.length,
                                  thickness := st.thickness,
                                  originalAngle := st.angle, col := st.col,
                                  isRoot := decide (st.stack.length = 0 ∧ st.y ≥ -1) }] }

/-- `f`: advance the pen without drawing. -/
def stepMove (cosF sinF : ℚ → ℚ) (st : TState) : TState :=
  { st with x := st.x + cosF st.angle * 10, y := st.y + sinF st.angle * 10 }

/-- `+`: turn right by the turn step scaled by `random(0.8, 3)`. -/
def stepTurnR (rng : Nat → ℚ) (st : TState) : TState :=
  { st with angle := st.angle + st.angleStep * randIn rng st.k (4/5) 3,
            k := st.k + 1 }

/-- `-`: turn left by the turn step scaled by `random(0.8, 3)`. -/
def stepTurnL (rng : Nat → ℚ) (st : TState) : TState :=
  { st with angle := st.angle - st.angleStep * randIn rng st.k (4/5) 3,
            k := st.k + 1 }

/-- `[`: push the pen state, then taper the thickness. -/
def stepPush (st : TState) : TState :=
  { st with stack := ⟨st.x, st.y, st.angle, st.thickness, st.col⟩ :: st.stack,
            thickness := st.thickness * (3/4) }

/-- `]`: restore the pen state from the stack top; a no-op when the
stack is empty (the source guards with `stack.length > 0`). -/
def stepPop (st : TState) : TState :=
  match st.stack with
  | [] => st
  | f :: rest =>
    { st with x := f.x, y := f.y, angle := f.angle,
              thickness := f.thickness, col := f.col, stack := rest }

/-- `*`: with probability `fruitProbability`, emit a fruit anchor with
a random size (two rng draws consumed); otherwise one draw. -/
def stepFruit (cfg : LConfig) (rng : Nat → ℚ) (st : TState) : TState :=
  if rng st.k < cfg.fruitProbability then
    { st with fruits := st.fruits ++ [⟨st.x, st.y, randIn rng (st.k + 1) 5 12,
                                       cfg.fruitColor, st.angle⟩],
              k := st.k + 2 }
  else { st with k := st.k + 1 }

/-- One step of the `switch` in `LSystem.process`. The only `.error`
site is the `c` case with color variation enabled, where the source
calls the local variable `color` (a p5.Color value shadowing the p5
`color()` constructor), a TypeError. -/
def LSystem.processChar (cfg : LConfig) (cosF sinF : ℚ → ℚ) (rng : Nat → ℚ)
    (c : Char) (st : TState) : Except Unit TState :=
  if c = 'F' ∨ c = 'G' then Except.ok (stepDraw cosF sinF st)
  else if c = 'f' then Except.ok (stepMove cosF sinF st)
  else if c = '+' then Except.ok (stepTurnR rng st)
  else if c = '-' then Except.ok (stepTurnL rng st)
  else if c = '<' then Except.ok { st with angleStep := st.angleStep * (4/5) }
  else if c = '>' then Except.ok { st with angleStep := st.angleStep * (5/4) }
  else if c = '[' then Except.ok (stepPush st)
  else if c = ']' then Except.ok (stepPop st)
  else if c = '!' then Except.ok { st with thickness := st.thickness * (4/5) }
  else if c = '"' then Except.ok { st with thickness := st.thickness * (6/5) }
  else if c = '*' then Except.ok (stepFruit cfg rng st)
  else if c = 'c' then
    if cfg.colorVariation = true then Except.error () else Except.ok st
  else Except.ok st

/-- Interpret a symbol string starting from a given turtle state;
errors propagate (the JS exception aborts `process`). -/
def LSystem.processFrom (cfg : LConfig) (cosF sinF : ℚ → ℚ) (rng : Nat → ℚ) :
    TState → List Char → Except Unit TState
  | st, [] => Except.ok st
  | st, c :: rest =>
    match LSystem.processChar cfg cosF sinF rng c st with
    | Except.ok st2 => LSystem.processFrom cfg cosF sinF rng st2 rest
    | Except.error e => Except.error e

/-- Initial turtle state of `process`: origin, heading `-PI/2` (passed
in as `startAngle`, its numeric value is irrelevant to the claims),
turn step from the grammar, thickness 1, stem color. -/
def LSystem.initTurtle (cfg : LConfig) (startAngle turnStep : ℚ) : TState :=
  ⟨0, 0, startAngle, turnStep, 1, cfg.stemColor, [], [], [], 0⟩

/-! ## Physics backend (MatterPhysics, src physics file) -/

/-- A point mass: identity (allocation counter), world position at
creation, the mass passed by the caller, and the fixed/static flag
(`fixParticle` is applied at creation when requested). -/
structure Particle where
  id : Nat
  x : ℚ
  y : ℚ
  mass : ℚ
  fixed : Bool
deriving DecidableEq

/-- Ghost tag recording which construction site created a spring
(segment spring, fruit-attachment spring, or angle-constraint spring).
The source distinguishes them only by call site. -/
inductive SpringKind where
  | segment : SpringKind
  | fruit : SpringKind
  | angleC : SpringKind
deriving DecidableEq

/-- Rest length of a spring, kept symbolic because ℚ has no square
root: either the Euclidean distance between the two endpoint positions
at creation (the `restLength < 0` default), the law-of-cosines length
used by angle constraints, or an explicitly passed number. -/
inductive RestLen where
  | euclid : ℚ → ℚ → ℚ → ℚ → RestLen
  | lawCos : ℚ → ℚ → ℚ → ℚ → ℚ → ℚ → ℚ → RestLen
  | lit : ℚ → RestLen
deriving DecidableEq

/-- A spring constraint between two particles (by id), with the
Matter-scaled stiffness (`strength * 5`) and symbolic rest length. -/
structure Spring where
  aId : Nat
  bId : Nat
  stiffness : ℚ
  rest : RestLen
  kind : SpringKind
deriving DecidableEq

/-- Collections tracked by `MatterPhysics`, plus the id allocator. -/
structure PhysicsState where
  nextId : Nat := 0
  bodies : List Particle := []
  springs : List Spring := []
deriving DecidableEq

/-- `MatterPhysics.createParticle(x, y, mass, isFixed)`: allocate a body
and append it; a fixed body is made static immediately. -/
def MatterPhysics.createParticle (ph : PhysicsState) (x y mass : ℚ)
    (isFixed : Bool) : Particle × PhysicsState :=
  let p : Particle := ⟨ph.nextId, x, y, mass, isFixed⟩
  (p, { ph with nextId := ph.nextId + 1, bodies := ph.bodies ++ [p] })

/-- `MatterPhysics.createSpring(a, b, strength, restLength)`: reject
null particles without mutating state; otherwise create the constraint
with stiffness `strength * 5` and rest length defaulting to the
Euclidean distance between the endpoints (`restLength = -1` sentinel is
modelled by `none`). `kind` is the ghost call-site tag. -/
def MatterPhysics.createSpring (ph : PhysicsState) (a? b? : Option Particle)
    (strength : ℚ) (rest? : Option RestLen) (kind : SpringKind) :
    Option Spring × PhysicsState :=
  match a?, b? with
  | some a, some b =>
    let rest := rest?.getD (RestLen.euclid a.x a.y b.x b.y)
    let s : Spring := ⟨a.id, b.id, strength * 5, rest, kind⟩
    (some s, { ph with springs := ph.springs ++ [s] })
  | _, _ => (none, ph)

/-- `MatterPhysics.createAngleConstraint(a, b, c, targetAngle,
strength)`: reject null particles; skip (return null) if either arm has
zero length (decided on squared lengths, equivalent to the source's
`lenAB === 0` on the square roots); otherwise create a weak spring
between the two far endpoints with the law-of-cosines rest length and
strength `strength * 0.05`. -/
def MatterPhysics.createAngleConstraint (ph : PhysicsState)
    (a? b? c? : Option Particle) (targetAngle strength : ℚ) :
    Option Spring × PhysicsState :=
  match a?, b?, c? with
  | some a, some b, some c =>
    let lenABsq := (b.x - a.x) ^ 2 + (b.y - a.y) ^ 2
    let lenBCsq := (c.x - b.x) ^ 2 + (c.y - b.y) ^ 2
    if lenABsq = 0 ∨ lenBCsq = 0 then (none, ph)
    else
      MatterPhysics.createSpring ph (some a) (some c) (strength * (1/20))
        (some (RestLen.lawCos a.x a.y b.x b.y c.x c.y targetAngle)) SpringKind.angleC
  | _, _, _ => (none, ph)

/-- `MatterPhysics.clear()`: drop all tracked bodies and springs (the
composite is replaced); the id allocator is kept so later ids stay
fresh. -/
def MatterPhysics.clear (ph : PhysicsState) : PhysicsState :=
  { nextId := ph.nextId, bodies := [], springs := [] }

/-! ## Plant instance and physics-graph builder (ToxicPlant, src/garden.js) -/

/-- Association list from rounded-coordinate keys to particles
(`this.particleMap`, a JS `Map` in insertion order). -/
abbrev PMap := List ((ℤ × ℤ) × Particle)

/-- Key lookup in the particle map. -/
def lookupKey : PMap → ℤ × ℤ → Option Particle
  | [], _ => none
  | (k', p) :: rest, k => if k' = k then some p else lookupKey rest k

/-- Mass of a newly created start-point particle:
`map(depth, 0, 10, 2, 0.2) * thicknessFactor`. -/
def startMass (depth : Nat) (t : ℚ) : ℚ := pmap (depth : ℚ) 0 10 2 (1/5) * t

/-- Mass of a newly created end-point particle:
`map(depth, 0, 10, 0.5, 0.05) * thicknessFactor`. -/
def endMass (depth : Nat) (t : ℚ) : ℚ := pmap (depth : ℚ) 0 10 (1/2) (1/20) * t

/-- Segment-spring strength: `map(depth, 0, 10, 0.05, 0.01) *
thicknessFactor`. -/
def springStrength (depth : Nat) (t : ℚ) : ℚ :=
  pmap (depth : ℚ) 0 10 (1/20) (1/100) * t

/-- The create-or-reuse block of `setupSegmentPhysics`: reuse the mapped
particle for the key if present, otherwise create one at the world
position and record it under the key. -/
def resolveParticle (ph : PhysicsState) (m : PMap) (k : ℤ × ℤ)
    (wx wy mass : ℚ) (isFixed : Bool) : Particle × PhysicsState × PMap :=
  match lookupKey m k with
  | some q => (q, ph, m)
  | none =>
    let c := MatterPhysics.createParticle ph wx wy mass isFixed
    (c.1, c.2, m ++ [(k, c.1)])

/-- Growth state and owned physics objects of one plant
(`ToxicPlant`). -/
structure PlantState where
  x : ℚ
  y : ℚ
  growth : ℚ := 0
  targetGrowth : ℚ := 1
  growthRate : ℚ := 3/100
  scaleFactor : ℚ
  segments : List Segment
  fruits : List Fruit
  physics : PhysicsState := {}
  particleMap : PMap := []
  fruitParticles : List Particle := []
  lastSegmentIndex : Nat := 0
  totalSegments : Nat
  growingPhase : Bool := true
  constraintsAdded : Bool := false
  fruitsAdded : Bool := false
deriving DecidableEq

/-- `ToxicPlant.setupSegmentPhysics(segment)`: transform the endpoints
to world space, create-or-reuse a particle for each rounded key (start
fixed iff `segment.isRoot`, end never fixed), and connect the two by a
segment spring with the default (Euclidean) rest length. -/
def ToxicPlant.setupSegmentPhysics (p : PlantState) (seg : Segment) : PlantState :=
  let t := thicknessOr1 seg.thickness
  let sk := segKey seg.x1 seg.y1
  let r1 := resolveParticle p.physics p.particleMap sk
    (p.x + seg.x1 * p.scaleFactor) (p.y + seg.y1 * p.scaleFactor)
    (startMass seg.depth t) seg.isRoot
  let ek := segKey seg.x2 seg.y2
  let r2 := resolveParticle r1.2.1 r1.2.2 ek
    (p.x + seg.x2 * p.scaleFactor) (p.y + seg.y2 * p.scaleFactor)
    (endMass seg.depth t) false
  let s := MatterPhysics.createSpring r2.2.1 (some r1.1) (some r2.1)
    (springStrength seg.depth t) none SpringKind.segment
  { p with physics := s.2, particleMap := r2.2.2 }

/-- The nearest-particle accumulator of `addFruits`: strict `<` on
distances, modelled on squared distances (equivalent for the
nonnegative square roots the source compares). -/
def nearestAux (x y : ℚ) : Option (Particle × ℚ) → PMap → Option (Particle × ℚ)
  | best, [] => best
  | best, e :: rest =>
    let dsq := (x - e.2.x) ^ 2 + (y - e.2.y) ^ 2
    match best with
    | none => nearestAux x y (some (e.2, dsq)) rest
    | some (q, bd) =>
      nearestAux x y (if dsq < bd then some (e.2, dsq) else some (q, bd)) rest

/-- Find the particle of the map nearest to `(x, y)` (first wins on
ties, as with the source's strict comparison). -/
def nearestParticle (m : PMap) (x y : ℚ) : Option Particle :=
  (nearestAux x y none m).map (fun r => r.1)

/-- Attach one fruit: find the nearest particle, create a light fruit
particle at the fruit's world position, and hang it on a weak spring
with rest length `fruit.size * 1.2`. -/
def attachFruit (px py scale : ℚ) (m : PMap)
    (acc : PhysicsState × List Particle) (f : Fruit) :
    PhysicsState × List Particle :=
  let x := px + f.x * scale
  let y := py + f.y * scale
  match nearestParticle m x y with
  | none => acc
  | some np =>
    let c := MatterPhysics.createParticle acc.1 x y (3/10) false
    let s := MatterPhysics.createSpring c.2 (some np) (some c.1) (1/200)
      (some (RestLen.lit (f.size * (6/5)))) SpringKind.fruit
    (s.2, acc.2 ++ [c.1])

/-- `ToxicPlant.addFruits()`: no-op without fruits; otherwise attach
each fruit in order. -/
def ToxicPlant.addFruits (p : PlantState) : PlantState :=
  if p.fruits.isEmpty then p
  else
    let r := p.fruits.foldl (attachFruit p.x p.y p.scaleFactor p.particleMap)
      (p.physics, p.fruitParticles)
    { p with physics := r.1, fruitParticles := r.2 }

/-- Insert a segment into the start-point grouping map (JS `Map` with
arrays: first key occurrence appends a new group, later ones push). -/
def insertGroup : List ((ℤ × ℤ) × List Segment) → ℤ × ℤ → Segment →
    List ((ℤ × ℤ) × List Segment)
  | [], k, s => [(k, [s])]
  | (k', l) :: rest, k, s =>
    if k' = k then (k', l ++ [s]) :: rest else (k', l) :: insertGroup rest k s

/-- Group all segments by their rounded start-point key. -/
def buildStartPointMap (segs : List Segment) : List ((ℤ × ℤ) × List Segment) :=
  segs.foldl (fun m s => insertGroup m (segKey s.x1 s.y1) s) []

/-- One pair of segments sharing a start point: look up the two end
particles (skip the pair if either is missing), and create the angle
constraint with the original angle difference and a depth-decaying
strength. -/
def pairConstraint (common : Option Particle) (m : PMap) (ph : PhysicsState)
    (sA sB : Segment) : PhysicsState :=
  match lookupKey m (segKey sA.x2 sA.y2), lookupKey m (segKey sB.x2 sB.y2) with
  | some endA, some endB =>
    let originalAngle := |sA.originalAngle - sB.originalAngle|
    let strength := pmap (sA.depth : ℚ) 0 10 (1/100) (1/500)
    (MatterPhysics.createAngleConstraint ph (some endA) common (some endB)
      originalAngle strength).2
  | _, _ => ph

/-- Inner `j` loop: pair the fixed segment `sA` with every later
segment. -/
def pairLoopInner (common : Option Particle) (m : PMap) (sA : Segment) :
    PhysicsState → List Segment → PhysicsState
  | ph, [] => ph
  | ph, sB :: rest => pairLoopInner common m sA (pairConstraint common m ph sA sB) rest

/-- Outer `i` loop over the ordered pairs `i < j` of a group. -/
def pairLoopOuter (common : Option Particle) (m : PMap) :
    PhysicsState → List Segment → PhysicsState
  | ph, [] => ph
  | ph, sA :: rest => pairLoopOuter common m (pairLoopInner common m sA ph rest) rest

/-- Walk all start-point groups; only groups with at least two segments
contribute constraints. -/
def anglePass (m : PMap) : PhysicsState → List ((ℤ × ℤ) × List Segment) →
    PhysicsState
  | ph, [] => ph
  | ph, (k, segs) :: rest =>
    anglePass m
      (if 2 ≤ segs.length then pairLoopOuter (lookupKey m k) m ph segs else ph) rest

/-- `ToxicPlant.addAngleConstraints()`: group segments by start key and
add an angle-constraint spring for every pair sharing a start point. -/
def ToxicPlant.addAngleConstraints (p : PlantState) : PlantState :=
  { p with physics := anglePass p.particleMap p.physics (buildStartPointMap p.segments) }

/-- Batch phase of `growPlant`: materialize the segments from
`lastSegmentIndex` up to `min(lastSegmentIndex + max(1, total/50),
total)` and advance `lastSegmentIndex` there. -/
def growBatch (p : PlantState) : PlantState :=
  let batch := max 1 (p.segments.length / 50)
  let endIndex := min (p.lastSegmentIndex + batch) p.segments.length
  { ((p.segments.drop p.lastSegmentIndex).take batch).foldl
      ToxicPlant.setupSegmentPhysics p with lastSegmentIndex := endIndex }

/-- Constraint phase of `growPlant`: once at least 80% of the segments
are materialized, add the angle constraints exactly once, guarded by
`constraintsAdded`. -/
def constraintPhase (p2 : PlantState) : PlantState :=
  if (p2.segments.length : ℚ) * (8/10) ≤ (p2.lastSegmentIndex : ℚ) ∧
      p2.constraintsAdded = false then
    { ToxicPlant.addAngleConstraints p2 with constraintsAdded := true }
  else p2

/-- Fruit phase of `growPlant`: once all segments are materialized (and
there are fruits), attach them exactly once, guarded by
`fruitsAdded`. -/
def fruitPhase (p3 : PlantState) : PlantState :=
  if p3.segments.length ≤ p3.lastSegmentIndex ∧ p3.fruits ≠ [] ∧
      p3.fruitsAdded = false then
    { ToxicPlant.addFruits p3 with fruitsAdded := true }
  else p3

/-- `ToxicPlant.growPlant()`: if everything is materialized, leave the
growing phase; otherwise materialize the next per-tick batch, then run
the (flag-guarded) constraint and fruit phases. -/
def ToxicPlant.growPlant (p : PlantState) : PlantState :=
  if p.segments.length ≤ p.lastSegmentIndex then { p with growingPhase := false }
  else fruitPhase (constraintPhase (growBatch p))

/-- `ToxicPlant.update()`: advance the growth fraction (capped at the
target), run `growPlant` while growing and behind the growth-mapped
segment target, and step the physics backend (the Matter engine step is
an external collaborator and does not change the tracked collections).
The source has no destroyed-state guard and no failure path. -/
def ToxicPlant.update (p : PlantState) : PlantState :=
  let p1 :=
    if p.growth < p.targetGrowth then
      { p with growth :=
          if p.targetGrowth < p.growth + p.growthRate then p.targetGrowth
          else p.growth + p.growthRate }
    else p
  if p1.growingPhase = true ∧ 1/10 < p1.growth then
    let growthFrac := p1.growth / p1.targetGrowth
    let targetSegments := Rat.floor (growthFrac * (p1.totalSegments : ℚ))
    if (p1.lastSegmentIndex : ℤ) < targetSegments then ToxicPlant.growPlant p1 else p1
  else p1

/-- `ToxicPlant.destroy()`: release the physics objects
(`physics.clear()`); nothing else on the plant is reset. -/
def ToxicPlant.destroy (p : PlantState) : PlantState :=
  { p with physics := MatterPhysics.clear p.physics }

/-- Number of angle-constraint springs currently tracked. -/
def angleCount (ph : PhysicsState) : Nat :=
  (ph.springs.filter (fun s => decide (s.kind = SpringKind.angleC))).length

/-! ## External force sources (HandAttractors, src/handAttractors.js) -/

/-- Attraction parameters of `HandAttractors` (defaults from the
constructor). -/
structure AttractorSettings where
  attractionStrength : ℚ := 1/5
  attractionRadius : ℚ := 60
  maxForce : ℚ := 1/10
deriving DecidableEq

/-- Outcome of the per-body loop of `applyAttractionToPlants`:
no force applied, a finite force vector applied, or a NaN force applied
(when `distance = 0`, the direction components are the JS quotient
`0 / 0 = NaN`, and the NaN propagates into `Matter.Body.applyForce`). -/
inductive ForceOutcome where
  | notApplied : ForceOutcome
  | nanForce : ForceOutcome
  | applied : ℚ → ℚ → ForceOutcome
deriving DecidableEq

/-- One iteration of the body loop of
`HandAttractors.applyAttractionToPlants`: skip static bodies, skip
bodies at or beyond the radius, otherwise apply the falloff force
capped by `maxForce` along the unit direction to the attractor.
`dist` is the Euclidean distance between `(ax, ay)` and `(bx, by)`
(supplied separately since ℚ has no square root; callers instantiate it
with the true distance). -/
def HandAttractors.applyAttractionToBody (cfg : AttractorSettings)
    (ax ay : ℚ) (isStatic : Bool) (bx bY dist : ℚ) : ForceOutcome :=
  if isStatic = true then ForceOutcome.notApplied
  else
    let dx := ax - bx
    let dy := ay - bY
    if dist < cfg.attractionRadius then
      let force := cfg.attractionStrength * (1 - dist / cfg.attractionRadius)
      let forceMagnitude := min force cfg.maxForce
      if dist = 0 then ForceOutcome.nanForce
      else ForceOutcome.applied (dx / dist * forceMagnitude) (dy / dist * forceMagnitude)
    else ForceOutcome.notApplied

/-! ## Concrete instances used by counterexamples and witnesses -/

/-- A plant right after construction fields are set, before any segment
is materialized (empty particle map and physics). -/
def freshPlant (px py scale : ℚ) (segs : List Segment) (frs : List Fruit) :
    PlantState :=
  { x := px, y := py, scaleFactor := scale, segments := segs, fruits := frs,
    totalSegments := segs.length }

/-- A zero rng stream (rules below consume no randomness). -/
def rng0 : Nat → ℚ := fun _ => 0

/-- The rule body `F → "FF+[+F]-[-F]"` of end-to-end scenario 1. -/
def c2rule : List Char := "FF+[+F]-[-F]".data

/-- GrammarSpec of end-to-end scenario 1: start `"F"`, the single rule
above, 2 iterations. -/
def c2spec : GrammarSpec :=
  { axiomStr := ['F'],
    rules := fun c => if c = 'F' then RuleRhs.lit c2rule else RuleRhs.noRule,
    iterations := 2 }

/-- The production after 2 iterations: every `F` of the first
generation replaced by the rule body. -/
def c2expected : List Char :=
  c2rule ++ c2rule ++ "+[+".data ++ c2rule ++ "]-[-".data ++ c2rule ++ "]".data

/-- A depth-0 root segment from the origin straight up (turtle step 10). -/
def sRoot : Segment :=
  { x1 := 0, y1 := 0, x2 := 0, y2 := -10, depth := 0, thickness := 1,
    originalAngle := -(157/100), col := 0, isRoot := true }

/-- Branch copy of the same geometry as produced by the production
fragment `"[F]F"`: drawn inside one bracket (depth 1, tapered
thickness), identical endpoints and heading. -/
def sDup1 : Segment :=
  { x1 := 0, y1 := 0, x2 := 0, y2 := -10, depth := 1, thickness := 3/4,
    originalAngle := -(157/100), col := 0, isRoot := false }

/-- Trunk copy drawn after popping the bracket: same endpoints and
heading at depth 0 (`"[F]F"` consumes no randomness between the two
draws). -/
def sDup2 : Segment :=
  { x1 := 0, y1 := 0, x2 := 0, y2 := -10, depth := 0, thickness := 1,
    originalAngle := -(157/100), col := 0, isRoot := true }

/-- Plant with the two coincident segments materialized. -/
def pDup : PlantState :=
  ToxicPlant.setupSegmentPhysics
    (ToxicPlant.setupSegmentPhysics (freshPlant 0 0 1 [sDup1, sDup2] []) sDup1)
    sDup2

/-- Segment whose start x-coordinate 0.004 rounds to key 0. -/
def sTolA : Segment :=
  { x1 := 1/250, y1 := 0, x2 := 10, y2 := 0, depth := 0, thickness := 1,
    originalAngle := 0, col := 0, isRoot := true }

/-- Segment whose start x-coordinate 0.006 (within 0.005 of 0.004)
rounds to key 1. -/
def sTolB : Segment :=
  { x1 := 3/500, y1 := 0, x2 := 20, y2 := 0, depth := 0, thickness := 1,
    originalAngle := 0, col := 0, isRoot := true }

/-- Plant with both tolerance-straddling segments materialized. -/
def pTol : PlantState :=
  ToxicPlant.setupSegmentPhysics
    (ToxicPlant.setupSegmentPhysics (freshPlant 0 0 1 [sTolA, sTolB] []) sTolA)
    sTolB

/-- A freshly created plant (no segments) used for the destroy/update
scenario. -/
def pLife : PlantState := freshPlant 100 500 1 [sRoot] []

/-- Interpreter configuration with color variation enabled (as for the
`flower` and `crystal` presets). -/
def cfgVar : LConfig :=
  { colorVariation := true, fruitProbability := 7/10, stemColor := 0, fruitColor := 1 }

/-- Concrete turtle start state for the interpreter runs. -/
def st10 : TState := LSystem.initTurtle cfgVar (-(157/100)) (2/5)

/-- Identity stand-ins for the trigonometric functions in concrete
turtle runs (their values are irrelevant to the statements). -/
def cos0 : ℚ → ℚ := fun _ => 1

/-- See `cos0`. -/
def sin0 : ℚ → ℚ := fun _ => 0

/-- Rule `F → F^3000` used to exercise the truncation branch. -/
def bigRules : Char → RuleRhs :=
  fun c => if c = 'F' then RuleRhs.lit (List.replicate 3000 'F') else RuleRhs.noRule

/-- GrammarSpec exercising the truncation branch. -/
def bigSpec : GrammarSpec := { axiomStr := ['F'], rules := bigRules, iterations := 3 }

/-- Turtle start state with the default (variation-off) configuration. -/
def stW : TState := LSystem.initTurtle {} (-(157/100)) (2/5)

/-- A fresh plant at (5, 7) with scale 2 holding the root segment. -/
def pW1 : PlantState := freshPlant 5 7 2 [sRoot] []

/-- A plant with the root segment already materialized (both of its
endpoint keys are in the particle map). -/
def pW7 : PlantState :=
  ToxicPlant.setupSegmentPhysics (freshPlant 0 0 1 [sRoot] []) sRoot

/-- The start particle `pW7` holds for the root segment's start key. -/
def qW7 : Particle := ⟨0, 0, 0, 2, true⟩

/-- The end particle `pW7` holds for the root segment's end key. -/
def rW7 : Particle := ⟨1, 0, -10, 1/2, false⟩

/-- A one-segment plant whose constraint phase flag is already set. -/
def pW9a : PlantState := { freshPlant 0 0 1 [sRoot] [] with constraintsAdded := true }

/-- A one-segment plant before any growth step. -/
def pW9b : PlantState := freshPlant 0 0 1 [sRoot] []

/-! ## Association-list lemmas for the particle map -/

theorem lookupKey_append_of_none {m : PMap} {k : ℤ × ℤ} (k0 : ℤ × ℤ) (q : Particle)
    (h : lookupKey m k = none) :
    lookupKey (m ++ [(k0, q)]) k = if k0 = k then some q else none := by
  induction m with
  | nil => rfl
  | cons e rest ih =>
    rw [List.cons_append]
    show (if e.1 = k then some e.2 else lookupKey (rest ++ [(k0, q)]) k) = _
    have he : ¬ e.1 = k := by
      intro hk
      rw [show lookupKey (e :: rest) k = if e.1 = k then some e.2 else lookupKey rest k
            from rfl, if_pos hk] at h
      exact Option.noConfusion h
    rw [if_neg he]
    refine ih ?_
    rw [show lookupKey (e :: rest) k = if e.1 = k then some e.2 else lookupKey rest k
          from rfl, if_neg he] at h
    exact h

theorem lookupKey_append_of_some {m : PMap} {k : ℤ × ℤ} {r : Particle}
    (k0 : ℤ × ℤ) (q : Particle) (h : lookupKey m k = some r) :
    lookupKey (m ++ [(k0, q)]) k = some r := by
  induction m with
  | nil => exact Option.noConfusion h
  | cons e rest ih =>
    rw [List.cons_append]
    show (if e.1 = k then some e.2 else lookupKey (rest ++ [(k0, q)]) k) = some r
    rw [show lookupKey (e :: rest) k = if e.1 = k then some e.2 else lookupKey rest k
          from rfl] at h
    by_cases he : e.1 = k
    · rw [if_pos he] at h ⊢; exact h
    · rw [if_neg he] at h ⊢; exact ih h

/-! ## Claim C2 -/

/-- C2 counterexample: with start `"F"`, the rule `F → "FF+[+F]-[-F]"`
and 2 iterations, `LSystem.generate` does not produce a production of
length 11: the rule body has 12 symbols, so the second generation has
4 * 12 + 8 = 56 symbols. -/
theorem c2_length_not_eleven : (LSystem.generate c2spec rng0).1.length ≠ 11 := by
  decide

/-- C2 (amended): with start `"F"`, the rule `F → "FF+[+F]-[-F]"` and 2
iterations, `LSystem.generate` deterministically (for every rng stream,
since literal rules consume no draws) produces the 56-symbol production
obtained by substituting the rule body for each `F` of the first
generation. -/
theorem c2_production_length_56 :
    ∀ rng : Nat → ℚ,
      (LSystem.generate c2spec rng).1 = c2expected ∧
      (LSystem.generate c2spec rng).1.length = 56 :=
  fun _ => ⟨rfl, rfl⟩

/-! ## Claim C4 -/

/-- C4 (code bug): with the constructor defaults (strength 0.2, radius
60, max force 0.1), a free body lying exactly at the attractor position
(distance 0 < radius) receives a NaN force: the source computes the
direction as `dx / distance = 0 / 0`, which is NaN in JS, instead of
the nonzero capped force the claim requires. -/
theorem c4_nan_force_at_exact_position :
    HandAttractors.applyAttractionToBody {} 100 100 false 100 100 0 =
      ForceOutcome.nanForce := by
  norm_num [HandAttractors.applyAttractionToBody]

/-! ## Claim C8 -/

/-- C8 counterexample: at branch depth 12 (thickness factor 1) the
end-point (tip) mass is NOT strictly below the start-point (joint)
mass: the unclamped linear maps give start mass -4/25 and end mass
-1/25, so the ordering flips (and both masses are negative). -/
theorem c8_tip_not_lighter_depth12 : ¬ (endMass 12 1 < startMass 12 1) := by
  norm_num [endMass, startMass, pmap]

/-- C8 (amended): for every branch depth up to 11 and every positive
thickness factor, the mass derived for a newly created end-point
particle is strictly less than the mass derived for a newly created
start-point particle of the same depth and thickness. -/
theorem c8_tip_lighter_amended (d : Nat) (hd : d ≤ 11) (t : ℚ) (ht : 0 < t) :
    endMass d t < startMass d t := by
  have hd' : (d : ℚ) ≤ 11 := by exact_mod_cast hd
  have key : pmap (d : ℚ) 0 10 (1/2) (1/20) < pmap (d : ℚ) 0 10 2 (1/5) := by
    unfold pmap
    nlinarith [hd']
  unfold endMass startMass
  exact mul_lt_mul_of_pos_right key ht

/-- C8 witness: concrete instance at depth 3, thickness 1. -/
theorem c8_tip_lighter_amended_witness :
    (3 : Nat) ≤ 11 ∧ (0 : ℚ) < 1 ∧ endMass 3 1 < startMass 3 1 :=
  ⟨by norm_num, by norm_num, c8_tip_lighter_amended 3 (by norm_num) 1 (by norm_num)⟩

/-! ## Claim C1 -/

/-- C1 counterexample: materializing the root segment (isRoot = true)
on a fresh plant creates its start particle fixed but its end particle
FREE, contradicting "every PointMass built from an isRoot=true Segment
endpoint (start or end) is fixed". -/
theorem c1_root_end_particle_free :
    sRoot.isRoot = true ∧
    pW7.physics.bodies.map (fun q => q.fixed) = [true, false] := by
  refine ⟨rfl, ?_⟩
  norm_num [pW7, freshPlant, ToxicPlant.setupSegmentPhysics, resolveParticle,
    lookupKey, segKey, toFixed2, round_eq, MatterPhysics.createParticle,
    MatterPhysics.createSpring, startMass, endMass, springStrength, pmap,
    thicknessOr1, sRoot, Prod.ext_iff]

/-- C1 (amended): when a segment is materialized and both of its
endpoint keys are new, the newly created start-point particle is fixed
if and only if the segment's `isRoot` flag is set, while the newly
created end-point particle is always free; a reused particle keeps the
flag it was created with. -/
theorem c1_fixed_iff_isRoot_amended (p : PlantState) (seg : Segment)
    (h1 : lookupKey p.particleMap (segKey seg.x1 seg.y1) = none)
    (h2 : lookupKey p.particleMap (segKey seg.x2 seg.y2) = none)
    (h3 : segKey seg.x1 seg.y1 ≠ segKey seg.x2 seg.y2) :
    ∃ ps pe : Particle,
      (ToxicPlant.setupSegmentPhysics p seg).physics.bodies =
        p.physics.bodies ++ [ps, pe] ∧
      ps.fixed = seg.isRoot ∧ pe.fixed = false := by
  refine ⟨⟨p.physics.nextId, p.x + seg.x1 * p.scaleFactor,
      p.y + seg.y1 * p.scaleFactor,
      startMass seg.depth (thicknessOr1 seg.thickness), seg.isRoot⟩,
    ⟨p.physics.nextId + 1, p.x + seg.x2 * p.scaleFactor,
      p.y + seg.y2 * p.scaleFactor,
      endMass seg.depth (thicknessOr1 seg.thickness), false⟩, ?_, rfl, rfl⟩
  unfold ToxicPlant.setupSegmentPhysics resolveParticle
  simp only [h1, MatterPhysics.createParticle]
  rw [lookupKey_append_of_none _ _ h2, if_neg h3]
  simp [MatterPhysics.createSpring, List.append_assoc]

/-- C1 witness: the amended statement applied to a fresh plant and the
root segment. -/
theorem c1_fixed_iff_isRoot_amended_witness :
    lookupKey pW1.particleMap (segKey sRoot.x1 sRoot.y1) = none ∧
    lookupKey pW1.particleMap (segKey sRoot.x2 sRoot.y2) = none ∧
    segKey sRoot.x1 sRoot.y1 ≠ segKey sRoot.x2 sRoot.y2 ∧
    (∃ ps pe : Particle,
      (ToxicPlant.setupSegmentPhysics pW1 sRoot).physics.bodies =
        pW1.physics.bodies ++ [ps, pe] ∧
      ps.fixed = sRoot.isRoot ∧ pe.fixed = false) := by
  have h3 : segKey sRoot.x1 sRoot.y1 ≠ segKey sRoot.x2 sRoot.y2 := by
    norm_num [sRoot, segKey, toFixed2, round_eq]
    decide
  exact ⟨rfl, rfl, h3, c1_fixed_iff_isRoot_amended pW1 sRoot rfl rfl h3⟩

/-! ## Claim C7 -/

/-- C7 counterexample: the start points of `sTolA` (x = 0.004) and
`sTolB` (x = 0.006) lie within the rounding tolerance 0.005 of each
other, yet after materializing both segments they resolve to two
DIFFERENT particles (ids 0 and 2), because 0.004 rounds to key 0 and
0.006 rounds to key 1. -/
theorem c7_tolerance_split_key :
    |sTolA.x1 - sTolB.x1| ≤ 1/200 ∧ sTolA.y1 = sTolB.y1 ∧
    (lookupKey pTol.particleMap (segKey sTolA.x1 sTolA.y1)).map (fun q => q.id) =
      some 0 ∧
    (lookupKey pTol.particleMap (segKey sTolB.x1 sTolB.y1)).map (fun q => q.id) =
      some 2 := by
  refine ⟨by norm_num [sTolA, sTolB, abs_le], rfl, ?_, ?_⟩ <;>
    norm_num [pTol, freshPlant, ToxicPlant.setupSegmentPhysics, resolveParticle,
      lookupKey, segKey, toFixed2, round_eq, MatterPhysics.createParticle,
      MatterPhysics.createSpring, startMass, endMass, springStrength, pmap,
      thicknessOr1, sTolA, sTolB, Prod.ext_iff]

/-- C7 (amended): when both endpoint keys of a segment are already in
the particle map (identical rounded keys), materializing it reuses the
two stored particles — it creates no particle and adds exactly one
spring connecting the stored particles; endpoints within tolerance
whose keys differ may get distinct particles. -/
theorem c7_dedup_reuse_amended (p : PlantState) (seg : Segment) (q r : Particle)
    (h1 : lookupKey p.particleMap (segKey seg.x1 seg.y1) = some q)
    (h2 : lookupKey p.particleMap (segKey seg.x2 seg.y2) = some r) :
    (ToxicPlant.setupSegmentPhysics p seg).particleMap = p.particleMap ∧
    (ToxicPlant.setupSegmentPhysics p seg).physics.bodies = p.physics.bodies ∧
    (ToxicPlant.setupSegmentPhysics p seg).physics.springs =
      p.physics.springs ++
        [⟨q.id, r.id, springStrength seg.depth (thicknessOr1 seg.thickness) * 5,
          RestLen.euclid q.x q.y r.x r.y, SpringKind.segment⟩] := by
  unfold ToxicPlant.setupSegmentPhysics resolveParticle
  simp only [h1, h2, MatterPhysics.createSpring]
  exact ⟨trivial, trivial, rfl⟩

/-- C7 witness: the amended statement applied to a plant that already
materialized the root segment, whose keys map to particles 0 and 1. -/
theorem c7_dedup_reuse_amended_witness :
    lookupKey pW7.particleMap (segKey sRoot.x1 sRoot.y1) = some qW7 ∧
    lookupKey pW7.particleMap (segKey sRoot.x2 sRoot.y2) = some rW7 ∧
    ((ToxicPlant.setupSegmentPhysics pW7 sRoot).particleMap = pW7.particleMap ∧
     (ToxicPlant.setupSegmentPhysics pW7 sRoot).physics.bodies =
       pW7.physics.bodies ∧
     (ToxicPlant.setupSegmentPhysics pW7 sRoot).physics.springs =
       pW7.physics.springs ++
         [⟨qW7.id, rW7.id, springStrength sRoot.depth (thicknessOr1 sRoot.thickness) * 5,
           RestLen.euclid qW7.x qW7.y rW7.x rW7.y, SpringKind.segment⟩]) := by
  have h1 : lookupKey pW7.particleMap (segKey sRoot.x1 sRoot.y1) = some qW7 := by
    norm_num [pW7, freshPlant, ToxicPlant.setupSegmentPhysics, resolveParticle,
      lookupKey, segKey, toFixed2, round_eq, MatterPhysics.createParticle,
      MatterPhysics.createSpring, startMass, endMass, springStrength, pmap,
      thicknessOr1, sRoot, qW7, Prod.ext_iff]
  have h2 : lookupKey pW7.particleMap (segKey sRoot.x2 sRoot.y2) = some rW7 := by
    norm_num [pW7, freshPlant, ToxicPlant.setupSegmentPhysics, resolveParticle,
      lookupKey, segKey, toFixed2, round_eq, MatterPhysics.createParticle,
      MatterPhysics.createSpring, startMass, endMass, springStrength, pmap,
      thicknessOr1, sRoot, rW7, Prod.ext_iff]
  exact ⟨h1, h2, c7_dedup_reuse_amended pW7 sRoot qW7 rW7 h1 h2⟩

/-! ## Claim C10 -/

/-- With color variation disabled, an interpreter step never raises:
the `c`-with-variation TypeError is the only error site of
`processChar`. -/
theorem processChar_no_error (cfg : LConfig) (cosF sinF : ℚ → ℚ) (rng : Nat → ℚ)
    (hvar : cfg.colorVariation = false) (c : Char) (s0 : TState) :
    LSystem.processChar cfg cosF sinF rng c s0 ≠ Except.error () := by
  unfold LSystem.processChar
  intro h
  by_cases h1 : c = 'F' ∨ c = 'G'
  · rw [if_pos h1] at h; exact Except.noConfusion h
  rw [if_neg h1] at h
  by_cases h2 : c = 'f'
  · rw [if_pos h2] at h; exact Except.noConfusion h
  rw [if_neg h2] at h
  by_cases h3 : c = '+'
  · rw [if_pos h3] at h; exact Except.noConfusion h
  rw [if_neg h3] at h
  by_cases h4 : c = '-'
  · rw [if_pos h4] at h; exact Except.noConfusion h
  rw [if_neg h4] at h
  by_cases h5 : c = '<'
  · rw [if_pos h5] at h; exact Except.noConfusion h
  rw [if_neg h5] at h
  by_cases h6 : c = '>'
  · rw [if_pos h6] at h; exact Except.noConfusion h
  rw [if_neg h6] at h
  by_cases h7 : c = '['
  · rw [if_pos h7] at h; exact Except.noConfusion h
  rw [if_neg h7] at h
  by_cases h8 : c = ']'
  · rw [if_pos h8] at h; exact Except.noConfusion h
  rw [if_neg h8] at h
  by_cases h9 : c = '!'
  · rw [if_pos h9] at h; exact Except.noConfusion h
  rw [if_neg h9] at h
  by_cases h10 : c = '"'
  · rw [if_pos h10] at h; exact Except.noConfusion h
  rw [if_neg h10] at h
  by_cases h11 : c = '*'
  · rw [if_pos h11] at h; exact Except.noConfusion h
  rw [if_neg h11] at h
  by_cases h12 : c = 'c'
  · rw [if_pos h12] at h
    by_cases h13 : cfg.colorVariation = true
    · rw [hvar] at h13; cases h13
    · rw [if_neg h13] at h; exact Except.noConfusion h
  rw [if_neg h12] at h
  exact Except.noConfusion h

/-- With color variation disabled, every interpreter step succeeds. -/
theorem processChar_total (cfg : LConfig) (cosF sinF : ℚ → ℚ) (rng : Nat → ℚ)
    (hvar : cfg.colorVariation = false) (c : Char) (s0 : TState) :
    ∃ s2, LSystem.processChar cfg cosF sinF rng c s0 = Except.ok s2 := by
  rcases he : LSystem.processChar cfg cosF sinF rng c s0 with e | s2
  · cases e
    exact absurd he (processChar_no_error cfg cosF sinF rng hvar c s0)
  · exact ⟨s2, rfl⟩

/-- C10 failing evaluation: with color variation enabled (as in the
`flower`/`crystal` presets), interpreting the single symbol `c` aborts
with an error — the source calls the local variable `color` (a p5.Color
value shadowing p5's `color()` function), a TypeError — so turtle
interpretation is NOT total over arbitrary symbol strings. -/
theorem c10_color_shift_type_error :
    LSystem.processFrom cfgVar cos0 sin0 rng0 st10 ['c'] = Except.error () := rfl

/-- C10 (amended): processing `]` with an empty saved-state stack
leaves the entire turtle state (position, heading, turn step,
thickness, color, stack, emitted segments/fruits, rng counter)
unchanged and raises no error, and interpretation of the rest of the
string proceeds exactly as if the `]` were absent; interpretation is
total over arbitrary symbol strings whenever color variation is
disabled (the color-shift symbol with variation enabled is the sole
error site). -/
theorem c10_pop_empty_total_amended (cfg : LConfig) (cosF sinF : ℚ → ℚ)
    (rng : Nat → ℚ) (st : TState) :
    (st.stack = [] → LSystem.processChar cfg cosF sinF rng ']' st = Except.ok st) ∧
    (∀ rest : List Char, st.stack = [] →
       LSystem.processFrom cfg cosF sinF rng st (']' :: rest) =
         LSystem.processFrom cfg cosF sinF rng st rest) ∧
    (cfg.colorVariation = false → ∀ (cs : List Char) (s0 : TState),
       ∃ s1, LSystem.processFrom cfg cosF sinF rng s0 cs = Except.ok s1) := by
  have hpop : ∀ s : TState, s.stack = [] →
      LSystem.processChar cfg cosF sinF rng ']' s = Except.ok s := by
    intro s hs
    have hred : LSystem.processChar cfg cosF sinF rng ']' s =
        Except.ok (stepPop s) := rfl
    rw [hred]
    unfold stepPop
    rw [hs]
  refine ⟨hpop st, ?_, ?_⟩
  · intro rest hs
    have hred : LSystem.processFrom cfg cosF sinF rng st (']' :: rest) =
        (match LSystem.processChar cfg cosF sinF rng ']' st with
         | Except.ok st2 => LSystem.processFrom cfg cosF sinF rng st2 rest
         | Except.error e => Except.error e) := rfl
    rw [hred, hpop st hs]
  · intro hvar cs
    induction cs with
    | nil => intro s0; exact ⟨s0, rfl⟩
    | cons c rest ih =>
      intro s0
      obtain ⟨s2, hs2⟩ := processChar_total cfg cosF sinF rng hvar c s0
      have hred : LSystem.processFrom cfg cosF sinF rng s0 (c :: rest) =
          (match LSystem.processChar cfg cosF sinF rng c s0 with
           | Except.ok st2 => LSystem.processFrom cfg cosF sinF rng st2 rest
           | Except.error e => Except.error e) := rfl
      rw [hred, hs2]
      exact ih s2

/-- C10 witness: the amended statement applied to the default
(variation-off) configuration and a concrete start state. -/
theorem c10_pop_empty_total_amended_witness :
    stW.stack = [] ∧ ({} : LConfig).colorVariation = false ∧
    LSystem.processChar {} cos0 sin0 rng0 ']' stW = Except.ok stW ∧
    LSystem.processFrom {} cos0 sin0 rng0 stW (']' :: ['F']) =
      LSystem.processFrom {} cos0 sin0 rng0 stW ['F'] ∧
    (∃ s1, LSystem.processFrom {} cos0 sin0 rng0 stW ['c', ']', 'F'] =
      Except.ok s1) :=
  ⟨rfl, rfl,
   (c10_pop_empty_total_amended {} cos0 sin0 rng0 stW).1 rfl,
   (c10_pop_empty_total_amended {} cos0 sin0 rng0 stW).2.1 ['F'] rfl,
   (c10_pop_empty_total_amended {} cos0 sin0 rng0 stW).2.2 rfl ['c', ']', 'F'] stW⟩

/-! ## Claim C3 -/

theorem setup_growth (p : PlantState) (s : Segment) :
    (ToxicPlant.setupSegmentPhysics p s).growth = p.growth := rfl

theorem foldl_setup_growth (l : List Segment) :
    ∀ p : PlantState, (l.foldl ToxicPlant.setupSegmentPhysics p).growth = p.growth := by
  induction l with
  | nil => intro p; rfl
  | cons s rest ih => intro p; exact ih (ToxicPlant.setupSegmentPhysics p s)

theorem addAngle_growth (p : PlantState) :
    (ToxicPlant.addAngleConstraints p).growth = p.growth := rfl

theorem addFruits_growth (p : PlantState) :
    (ToxicPlant.addFruits p).growth = p.growth := by
  unfold ToxicPlant.addFruits
  split <;> rfl

theorem growBatch_growth (p : PlantState) :
    (growBatch p).growth = p.growth :=
  foldl_setup_growth _ p

theorem constraintPhase_growth (p : PlantState) :
    (constraintPhase p).growth = p.growth := by
  unfold constraintPhase
  split <;> rfl

theorem fruitPhase_growth (p : PlantState) :
    (fruitPhase p).growth = p.growth := by
  unfold fruitPhase
  split
  · rw [show ({ ToxicPlant.addFruits p with fruitsAdded := true } : PlantState).growth
        = (ToxicPlant.addFruits p).growth from rfl, addFruits_growth]
  · rfl

theorem grow_growth (p : PlantState) :
    (ToxicPlant.growPlant p).growth = p.growth := by
  unfold ToxicPlant.growPlant
  split
  · rfl
  · rw [fruitPhase_growth, constraintPhase_growth, growBatch_growth]

/-- Growth-fraction evolution of one `update` tick, independent of the
rest of the state. -/
theorem update_growth (p : PlantState) :
    (ToxicPlant.update p).growth =
      if p.growth < p.targetGrowth then
        (if p.targetGrowth < p.growth + p.growthRate then p.targetGrowth
         else p.growth + p.growthRate)
      else p.growth := by
  unfold ToxicPlant.update
  dsimp only
  split_ifs <;> simp_all [grow_growth]

/-- C3 counterexample: on a freshly created then destroyed plant, a
subsequent `update` is not rejected — the source has no destroyed-state
guard and no failure path, so the embedded `update` is a total function
— and it performs the normal growth work (the growth fraction advances
from 0 to the growth rate 0.03) instead of failing with an
invalid-state condition. -/
theorem c3_update_after_destroy_proceeds :
    (ToxicPlant.update (ToxicPlant.destroy pLife)).growth = 3/100 ∧
    (ToxicPlant.destroy pLife).growth = 0 := by
  constructor <;>
    norm_num [ToxicPlant.update, ToxicPlant.destroy, MatterPhysics.clear,
      pLife, freshPlant, ToxicPlant.growPlant]

/-- C3 (amended): `destroy` only releases the plant's physics objects;
a subsequent `update` raises no error and runs the normal update logic
— for every plant, the growth fraction after `update ∘ destroy` equals
the growth fraction after a plain `update`. -/
theorem c3_update_after_destroy_normal (p : PlantState) :
    (ToxicPlant.update (ToxicPlant.destroy p)).growth =
      (ToxicPlant.update p).growth := by
  rw [update_growth, update_growth]
  rfl

/-! ## Claim C5 -/

theorem genLoop_le (rules : Char → RuleRhs) (rng : Nat → ℚ) :
    ∀ (n : Nat) (s : List Char) (k : Nat), 1 ≤ n →
      (genLoop rules rng n s k).1.length ≤ 2000 := by
  intro n
  induction n with
  | zero => intro s k h; exact absurd h (by omega)
  | succ m ih =>
    intro s k _
    rw [show genLoop rules rng (m + 1) s k =
        (if 2000 < (rewriteOnce rules rng s k).1.length
         then ((rewriteOnce rules rng s k).1.take 2000, (rewriteOnce rules rng s k).2)
         else genLoop rules rng m (rewriteOnce rules rng s k).1
                (rewriteOnce rules rng s k).2) from rfl]
    by_cases h : 2000 < (rewriteOnce rules rng s k).1.length
    · rw [if_pos h]
      simp only [List.length_take]
      exact min_le_left _ _
    · rw [if_neg h]
      cases m with
      | zero => exact Nat.le_of_not_lt h
      | succ m2 => exact ih _ _ (by omega)

theorem iterClamp_pos (n : Nat) : 1 ≤ LSystem.iterClamp n := by
  unfold LSystem.iterClamp
  split_ifs with h
  · norm_num
  · exact le_min (by omega) (by norm_num)

/-- C5: for every GrammarSpec (the constructor clamps the iteration
count into 1..4), `generate` terminates with a production of at most
2000 symbols; and whenever an intermediate generation exceeds the cap,
the result is that generation truncated to exactly 2000 symbols and no
further iterations run (the remaining iteration count is irrelevant). -/
theorem c5_expand_bounded :
    ∀ (cfg : GrammarSpec) (rng : Nat → ℚ),
      (LSystem.generate cfg rng).1.length ≤ 2000 ∧
      (∀ (n : Nat) (s : List Char) (k : Nat),
         2000 < (rewriteOnce cfg.rules rng s k).1.length →
         genLoop cfg.rules rng (n + 1) s k =
           ((rewriteOnce cfg.rules rng s k).1.take 2000,
            (rewriteOnce cfg.rules rng s k).2)) := by
  intro cfg rng
  refine ⟨genLoop_le cfg.rules rng _ cfg.axiomStr 0 (iterClamp_pos cfg.iterations), ?_⟩
  intro n s k h
  rw [show genLoop cfg.rules rng (n + 1) s k =
      (if 2000 < (rewriteOnce cfg.rules rng s k).1.length
       then ((rewriteOnce cfg.rules rng s k).1.take 2000,
             (rewriteOnce cfg.rules rng s k).2)
       else genLoop cfg.rules rng n (rewriteOnce cfg.rules rng s k).1
              (rewriteOnce cfg.rules rng s k).2) from rfl]
  rw [if_pos h]

set_option maxRecDepth 100000 in
/-- C5 witness: the bound applied to the `F → F^3000` grammar, whose
first generation (3000 symbols) exceeds the cap and is truncated. -/
theorem c5_expand_bounded_witness :
    (LSystem.generate bigSpec rng0).1.length ≤ 2000 ∧
    (2000 < (rewriteOnce bigRules rng0 ['F'] 0).1.length ∧
     genLoop bigRules rng0 (0 + 1) ['F'] 0 =
       ((rewriteOnce bigRules rng0 ['F'] 0).1.take 2000,
        (rewriteOnce bigRules rng0 ['F'] 0).2)) := by
  have e1 : rewriteOnce bigRules rng0 ['F'] 0 = (List.replicate 3000 'F' ++ [], 0) := rfl
  have hlen : 2000 < (rewriteOnce bigRules rng0 ['F'] 0).1.length := by
    rw [e1]
    show 2000 < (List.replicate 3000 'F' ++ [] : List Char).length
    rw [List.append_nil, List.length_replicate]
    norm_num
  exact ⟨(c5_expand_bounded bigSpec rng0).1, hlen,
         (c5_expand_bounded bigSpec rng0).2 0 ['F'] 0 hlen⟩

/-! ## Claim C6 -/

theorem lookupKey_mem_id : ∀ (m : PMap) (k : ℤ × ℤ) (q : Particle),
    lookupKey m k = some q → q.id ∈ m.map (fun e => e.2.id) := by
  intro m
  induction m with
  | nil => intro k q h; exact Option.noConfusion h
  | cons e rest ih =>
    intro k q h
    rw [show lookupKey (e :: rest) k =
        if e.1 = k then some e.2 else lookupKey rest k from rfl] at h
    by_cases he : e.1 = k
    · rw [if_pos he] at h
      injection h with h2
      subst h2
      simp
    · rw [if_neg he] at h
      simp only [List.map_cons, List.mem_cons]
      exact Or.inr (ih k q h)

theorem lookupKey_ne_of_nodup : ∀ (m : PMap),
    (m.map (fun e => e.2.id)).Nodup →
    ∀ (k1 k2 : ℤ × ℤ) (q r : Particle), k1 ≠ k2 →
      lookupKey m k1 = some q → lookupKey m k2 = some r → q.id ≠ r.id := by
  intro m
  induction m with
  | nil => intro _ k1 k2 q r _ h1; exact Option.noConfusion h1
  | cons e rest ih =>
    intro hnd k1 k2 q r hk h1 h2
    rw [show lookupKey (e :: rest) k1 =
        if e.1 = k1 then some e.2 else lookupKey rest k1 from rfl] at h1
    rw [show lookupKey (e :: rest) k2 =
        if e.1 = k2 then some e.2 else lookupKey rest k2 from rfl] at h2
    simp only [List.map_cons, List.nodup_cons] at hnd
    obtain ⟨hnotin, hnd2⟩ := hnd
    by_cases he1 : e.1 = k1
    · rw [if_pos he1] at h1
      injection h1 with h1
      subst h1
      have he2 : ¬ e.1 = k2 := fun h => hk (he1.symm.trans h)
      rw [if_neg he2] at h2
      intro hqr
      exact hnotin (by rw [hqr]; exact lookupKey_mem_id rest k2 r h2)
    · rw [if_neg he1] at h1
      by_cases he2 : e.1 = k2
      · rw [if_pos he2] at h2
        injection h2 with h2
        subst h2
        intro hqr
        exact hnotin (by rw [← hqr]; exact lookupKey_mem_id rest k1 q h1)
      · rw [if_neg he2] at h2
        exact ih hnd2 k1 k2 q r hk h1 h2

theorem nearestAux_mem : ∀ (m : PMap) (x y : ℚ) (b : Option (Particle × ℚ))
    (q : Particle) (d : ℚ), nearestAux x y b m = some (q, d) →
    q ∈ m.map (fun e => e.2) ∨ (∃ d0, b = some (q, d0)) := by
  intro m
  induction m with
  | nil => intro x y b q d h; exact Or.inr ⟨d, h⟩
  | cons e rest ih =>
    intro x y b q d h
    cases b with
    | none =>
      rcases ih x y (some (e.2, (x - e.2.x) ^ 2 + (y - e.2.y) ^ 2)) q d h with
        hm | ⟨d0, hb⟩
      · simp only [List.map_cons, List.mem_cons]
        exact Or.inl (Or.inr hm)
      · injection hb with hb
        simp only [List.map_cons, List.mem_cons]
        exact Or.inl (Or.inl (congrArg Prod.fst hb).symm)
    | some pair =>
      obtain ⟨p0, bd⟩ := pair
      rcases ih x y
          (if (x - e.2.x) ^ 2 + (y - e.2.y) ^ 2 < bd
           then some (e.2, (x - e.2.x) ^ 2 + (y - e.2.y) ^ 2)
           else some (p0, bd)) q d h with hm | ⟨d0, hb⟩
      · simp only [List.map_cons, List.mem_cons]
        exact Or.inl (Or.inr hm)
      · by_cases hlt : (x - e.2.x) ^ 2 + (y - e.2.y) ^ 2 < bd
        · rw [if_pos hlt] at hb
          injection hb with hb
          simp only [List.map_cons, List.mem_cons]
          exact Or.inl (Or.inl (congrArg Prod.fst hb).symm)
        · rw [if_neg hlt] at hb
          injection hb with hb
          exact Or.inr ⟨bd, by rw [show p0 = q from congrArg Prod.fst hb]⟩

theorem nearestParticle_mem (m : PMap) (x y : ℚ) (np : Particle)
    (h : nearestParticle m x y = some np) : np ∈ m.map (fun e => e.2) := by
  unfold nearestParticle at h
  cases haux : nearestAux x y none m with
  | none => rw [haux] at h; exact Option.noConfusion h
  | some pair =>
    obtain ⟨q, d⟩ := pair
    rw [haux] at h
    injection h with h
    rcases nearestAux_mem m x y none q d haux with hm | ⟨d0, hb⟩
    · rw [← h]; exact hm
    · exact Option.noConfusion hb

theorem attachFruit_step (px py sc : ℚ) (m : PMap)
    (acc : PhysicsState × List Particle) (f : Fruit)
    (hm : ∀ e ∈ m, e.2.id < acc.1.nextId) :
    (∀ s ∈ (attachFruit px py sc m acc f).1.springs,
       s ∈ acc.1.springs ∨ s.aId ≠ s.bId) ∧
    acc.1.nextId ≤ (attachFruit px py sc m acc f).1.nextId := by
  unfold attachFruit
  dsimp only
  cases hnp : nearestParticle m (px + f.x * sc) (py + f.y * sc) with
  | none =>
    exact ⟨fun s hs => Or.inl hs, le_refl _⟩
  | some np =>
    have hnpid : np.id < acc.1.nextId := by
      have hmem := nearestParticle_mem m _ _ np hnp
      simp only [List.mem_map] at hmem
      obtain ⟨e, he, hid⟩ := hmem
      rw [← hid]
      exact hm e he
    constructor
    · intro s hs
      simp only [MatterPhysics.createParticle, MatterPhysics.createSpring,
        List.mem_append, List.mem_singleton] at hs
      rcases hs with hs | hs
      · exact Or.inl hs
      · subst hs
        refine Or.inr ?_
        show np.id ≠ acc.1.nextId
        omega
    · show acc.1.nextId ≤ acc.1.nextId + 1
      omega

theorem attachFold_springs (px py sc : ℚ) (m : PMap) (fs : List Fruit) :
    ∀ (acc : PhysicsState × List Particle),
      (∀ e ∈ m, e.2.id < acc.1.nextId) →
      ∀ s ∈ (fs.foldl (attachFruit px py sc m) acc).1.springs,
        s ∈ acc.1.springs ∨ s.aId ≠ s.bId := by
  induction fs with
  | nil => intro acc _ s hs; exact Or.inl hs
  | cons f rest ih =>
    intro acc hm s hs
    have hm2 : ∀ e ∈ m, e.2.id < (attachFruit px py sc m acc f).1.nextId :=
      fun e he => lt_of_lt_of_le (hm e he) (attachFruit_step px py sc m acc f hm).2
    rcases ih (attachFruit px py sc m acc f) hm2 s (by simpa using hs) with h1 | h2
    · exact (attachFruit_step px py sc m acc f hm).1 s h1
    · exact Or.inr h2

/-- C6 (amended): provided the particle map is well-formed (all mapped
ids are below the allocator and pairwise distinct — true of every map
the builder constructs) and the segment's two endpoint keys differ
(true of every turtle segment, whose endpoints are 10 units apart),
every spring created by materializing the segment and every
fruit-attachment spring connects two DISTINCT particles; angle
constraint springs do not satisfy this (see the counterexample). -/
theorem c6_spring_endpoints_distinct_amended (p : PlantState) (seg : Segment)
    (hlt : ∀ e ∈ p.particleMap, e.2.id < p.physics.nextId)
    (hnd : (p.particleMap.map (fun e => e.2.id)).Nodup)
    (hkey : segKey seg.x1 seg.y1 ≠ segKey seg.x2 seg.y2) :
    (∀ s ∈ (ToxicPlant.setupSegmentPhysics p seg).physics.springs,
       s ∈ p.physics.springs ∨ s.aId ≠ s.bId) ∧
    (∀ s ∈ (ToxicPlant.addFruits p).physics.springs,
       s ∈ p.physics.springs ∨ s.aId ≠ s.bId) := by
  constructor
  · unfold ToxicPlant.setupSegmentPhysics resolveParticle
    cases h1 : lookupKey p.particleMap (segKey seg.x1 seg.y1) with
    | some q =>
      cases h2 : lookupKey p.particleMap (segKey seg.x2 seg.y2) with
      | some r =>
        have hqr : q.id ≠ r.id :=
          lookupKey_ne_of_nodup p.particleMap hnd _ _ q r hkey h1 h2
        intro s hs
        simp only [h1, h2, MatterPhysics.createSpring, List.mem_append,
          List.mem_singleton] at hs
        rcases hs with hs | hs
        · exact Or.inl hs
        · subst hs; exact Or.inr hqr
      | none =>
        have hq : q.id < p.physics.nextId := by
          have hmem := lookupKey_mem_id p.particleMap _ q h1
          simp only [List.mem_map] at hmem
          obtain ⟨e, he, hid⟩ := hmem
          rw [← hid]; exact hlt e he
        intro s hs
        simp only [h1, h2, MatterPhysics.createParticle, MatterPhysics.createSpring,
          List.mem_append, List.mem_singleton] at hs
        rcases hs with hs | hs
        · exact Or.inl hs
        · subst hs
          refine Or.inr ?_
          show q.id ≠ p.physics.nextId
          omega
    | none =>
      cases h2 : lookupKey p.particleMap (segKey seg.x2 seg.y2) with
      | some r =>
        have hr : r.id < p.physics.nextId := by
          have hmem := lookupKey_mem_id p.particleMap _ r h2
          simp only [List.mem_map] at hmem
          obtain ⟨e, he, hid⟩ := hmem
          rw [← hid]; exact hlt e he
        have h2' : lookupKey
            (p.particleMap ++ [(segKey seg.x1 seg.y1,
              (MatterPhysics.createParticle p.physics
                (p.x + seg.x1 * p.scaleFactor) (p.y + seg.y1 * p.scaleFactor)
                (startMass seg.depth (thicknessOr1 seg.thickness)) seg.isRoot).1)])
            (segKey seg.x2 seg.y2) = some r :=
          lookupKey_append_of_some _ _ h2
        simp only [MatterPhysics.createParticle] at h2'
        intro s hs
        simp only [h1, h2', MatterPhysics.createParticle, MatterPhysics.createSpring,
          List.mem_append, List.mem_singleton] at hs
        rcases hs with hs | hs
        · exact Or.inl hs
        · subst hs
          refine Or.inr ?_
          show p.physics.nextId ≠ r.id
          omega
      | none =>
        have h2' : lookupKey
            (p.particleMap ++ [(segKey seg.x1 seg.y1,
              (MatterPhysics.createParticle p.physics
                (p.x + seg.x1 * p.scaleFactor) (p.y + seg.y1 * p.scaleFactor)
                (startMass seg.depth (thicknessOr1 seg.thickness)) seg.isRoot).1)])
            (segKey seg.x2 seg.y2) = none := by
          rw [lookupKey_append_of_none _ _ h2, if_neg hkey]
        simp only [MatterPhysics.createParticle] at h2'
        intro s hs
        simp only [h1, h2', MatterPhysics.createParticle, MatterPhysics.createSpring,
          List.mem_append, List.mem_singleton] at hs
        rcases hs with hs | hs
        · exact Or.inl hs
        · subst hs
          refine Or.inr ?_
          show p.physics.nextId ≠ p.physics.nextId + 1
          omega
  · unfold ToxicPlant.addFruits
    split
    · intro s hs; exact Or.inl hs
    · intro s hs
      exact attachFold_springs p.x p.y p.scaleFactor p.particleMap p.fruits
        (p.physics, p.fruitParticles) hlt s hs

/-- C6 counterexample: the plant holding the two coincident segments
produced by the fragment `"[F]F"` (identical rounded endpoint keys)
creates, in the angle-constraint pass, a spring whose two endpoints are
one and the same PointMass (particle 1 on both sides): the two
segments share a start group, and both end keys resolve to the same
particle, which `createAngleConstraint` happily connects to itself. -/
theorem c6_angle_spring_self_loop :
    (ToxicPlant.addAngleConstraints pDup).physics.springs.map
      (fun s => (s.kind, s.aId, s.bId)) =
      [(SpringKind.segment, 0, 1), (SpringKind.segment, 0, 1),
       (SpringKind.angleC, 1, 1)] := by
  norm_num [pDup, sDup1, sDup2, freshPlant, ToxicPlant.setupSegmentPhysics,
    resolveParticle, lookupKey, segKey, toFixed2, round_eq,
    MatterPhysics.createParticle, MatterPhysics.createSpring,
    MatterPhysics.createAngleConstraint, startMass, endMass, springStrength,
    pmap, thicknessOr1, ToxicPlant.addAngleConstraints, anglePass,
    buildStartPointMap, insertGroup, pairLoopOuter, pairLoopInner,
    pairConstraint, Prod.ext_iff]

/-- C6 witness: the amended statement applied to the plant holding the
materialized root segment (map ids 0 and 1, allocator at 2). -/
theorem c6_spring_endpoints_distinct_amended_witness :
    (∀ e ∈ pW7.particleMap, e.2.id < pW7.physics.nextId) ∧
    (pW7.particleMap.map (fun e => e.2.id)).Nodup ∧
    segKey sRoot.x1 sRoot.y1 ≠ segKey sRoot.x2 sRoot.y2 ∧
    ((∀ s ∈ (ToxicPlant.setupSegmentPhysics pW7 sRoot).physics.springs,
        s ∈ pW7.physics.springs ∨ s.aId ≠ s.bId) ∧
     (∀ s ∈ (ToxicPlant.addFruits pW7).physics.springs,
        s ∈ pW7.physics.springs ∨ s.aId ≠ s.bId)) := by
  have hmap : pW7.particleMap = [((0, 0), qW7), ((0, -1000), rW7)] := by
    norm_num [pW7, freshPlant, ToxicPlant.setupSegmentPhysics, resolveParticle,
      lookupKey, segKey, toFixed2, round_eq, MatterPhysics.createParticle,
      MatterPhysics.createSpring, startMass, endMass, springStrength, pmap,
      thicknessOr1, sRoot, qW7, rW7, Prod.ext_iff]
  have hnext : pW7.physics.nextId = 2 := by
    norm_num [pW7, freshPlant, ToxicPlant.setupSegmentPhysics, resolveParticle,
      lookupKey, segKey, toFixed2, round_eq, MatterPhysics.createParticle,
      MatterPhysics.createSpring, startMass, endMass, springStrength, pmap,
      thicknessOr1, sRoot, Prod.ext_iff]
  have hlt : ∀ e ∈ pW7.particleMap, e.2.id < pW7.physics.nextId := by
    rw [hmap, hnext]
    intro e he
    simp only [List.mem_cons, List.not_mem_nil, or_false] at he
    rcases he with rfl | rfl <;> norm_num [qW7, rW7]
  have hnd : (pW7.particleMap.map (fun e => e.2.id)).Nodup := by
    rw [hmap]
    simp [qW7, rW7]
  have hkey : segKey sRoot.x1 sRoot.y1 ≠ segKey sRoot.x2 sRoot.y2 := by
    norm_num [sRoot, segKey, toFixed2, round_eq]
    decide
  exact ⟨hlt, hnd, hkey,
    c6_spring_endpoints_distinct_amended pW7 sRoot hlt hnd hkey⟩

/-! ## Claim C9 -/

theorem setup_constraintsAdded (p : PlantState) (s : Segment) :
    (ToxicPlant.setupSegmentPhysics p s).constraintsAdded = p.constraintsAdded := rfl

theorem setup_segments (p : PlantState) (s : Segment) :
    (ToxicPlant.setupSegmentPhysics p s).segments = p.segments := rfl

theorem foldl_setup_constraintsAdded (l : List Segment) :
    ∀ p : PlantState,
      (l.foldl ToxicPlant.setupSegmentPhysics p).constraintsAdded =
        p.constraintsAdded := by
  induction l with
  | nil => intro p; rfl
  | cons s rest ih => intro p; exact ih (ToxicPlant.setupSegmentPhysics p s)

theorem foldl_setup_segments (l : List Segment) :
    ∀ p : PlantState,
      (l.foldl ToxicPlant.setupSegmentPhysics p).segments = p.segments := by
  induction l with
  | nil => intro p; rfl
  | cons s rest ih => intro p; exact ih (ToxicPlant.setupSegmentPhysics p s)

theorem angleCount_setup (p : PlantState) (seg : Segment) :
    angleCount (ToxicPlant.setupSegmentPhysics p seg).physics =
      angleCount p.physics := by
  unfold ToxicPlant.setupSegmentPhysics resolveParticle
  cases h1 : lookupKey p.particleMap (segKey seg.x1 seg.y1) with
  | some q =>
    cases h2 : lookupKey p.particleMap (segKey seg.x2 seg.y2) with
    | some r =>
      simp [h1, h2, MatterPhysics.createSpring, angleCount, List.filter_append]
    | none =>
      simp [h1, h2, MatterPhysics.createParticle, MatterPhysics.createSpring,
        angleCount, List.filter_append]
  | none =>
    cases h2 : lookupKey (p.particleMap ++ [(segKey seg.x1 seg.y1,
        (MatterPhysics.createParticle p.physics (p.x + seg.x1 * p.scaleFactor)
          (p.y + seg.y1 * p.scaleFactor)
          (startMass seg.depth (thicknessOr1 seg.thickness)) seg.isRoot).1)])
        (segKey seg.x2 seg.y2) with
    | some r =>
      simp only [MatterPhysics.createParticle] at h2
      simp [h1, h2, MatterPhysics.createParticle, MatterPhysics.createSpring,
        angleCount, List.filter_append]
    | none =>
      simp only [MatterPhysics.createParticle] at h2
      simp [h1, h2, MatterPhysics.createParticle, MatterPhysics.createSpring,
        angleCount, List.filter_append]

theorem angleCount_foldl_setup (l : List Segment) :
    ∀ p : PlantState,
      angleCount ((l.foldl ToxicPlant.setupSegmentPhysics p).physics) =
        angleCount p.physics := by
  induction l with
  | nil => intro p; rfl
  | cons s rest ih =>
    intro p
    rw [List.foldl_cons, ih (ToxicPlant.setupSegmentPhysics p s), angleCount_setup]

theorem angleCount_attachFruit (px py sc : ℚ) (m : PMap)
    (acc : PhysicsState × List Particle) (f : Fruit) :
    angleCount (attachFruit px py sc m acc f).1 = angleCount acc.1 := by
  unfold attachFruit
  dsimp only
  cases nearestParticle m (px + f.x * sc) (py + f.y * sc) with
  | none => rfl
  | some np =>
    simp [MatterPhysics.createParticle, MatterPhysics.createSpring, angleCount,
      List.filter_append]

theorem angleCount_attachFold (px py sc : ℚ) (m : PMap) (fs : List Fruit) :
    ∀ acc : PhysicsState × List Particle,
      angleCount ((fs.foldl (attachFruit px py sc m) acc).1) = angleCount acc.1 := by
  induction fs with
  | nil => intro acc; rfl
  | cons f rest ih =>
    intro acc
    rw [List.foldl_cons, ih (attachFruit px py sc m acc f), angleCount_attachFruit]

theorem addFruits_constraintsAdded (p : PlantState) :
    (ToxicPlant.addFruits p).constraintsAdded = p.constraintsAdded := by
  unfold ToxicPlant.addFruits
  split <;> rfl

theorem angleCount_addFruits (p : PlantState) :
    angleCount (ToxicPlant.addFruits p).physics = angleCount p.physics := by
  unfold ToxicPlant.addFruits
  split
  · rfl
  · exact angleCount_attachFold p.x p.y p.scaleFactor p.particleMap p.fruits
      (p.physics, p.fruitParticles)

theorem growBatch_constraintsAdded (p : PlantState) :
    (growBatch p).constraintsAdded = p.constraintsAdded :=
  foldl_setup_constraintsAdded _ p

theorem growBatch_segments (p : PlantState) :
    (growBatch p).segments = p.segments :=
  foldl_setup_segments _ p

theorem angleCount_growBatch (p : PlantState) :
    angleCount (growBatch p).physics = angleCount p.physics :=
  angleCount_foldl_setup _ p

theorem constraintPhase_of_flag (q : PlantState) (h : q.constraintsAdded = true) :
    constraintPhase q = q := by
  unfold constraintPhase
  rw [if_neg]
  simp [h]

theorem fruitPhase_constraintsAdded (q : PlantState) :
    (fruitPhase q).constraintsAdded = q.constraintsAdded := by
  unfold fruitPhase
  split
  · exact addFruits_constraintsAdded q
  · rfl

theorem fruitPhase_angleCount (q : PlantState) :
    angleCount (fruitPhase q).physics = angleCount q.physics := by
  unfold fruitPhase
  split
  · exact angleCount_addFruits q
  · rfl

/-- C9: the constraint-addition step is guarded by the phase flag — if
`constraintsAdded` is already set, a further growth step adds NO
angle-constraint spring (and the flag stays set); and when the flag is
clear and segments remain, the growth step sets the flag exactly when
the materialized-segment count after the batch reaches at least 80% of
the total segment count. -/
theorem c9_angle_constraints_once (p : PlantState) :
    (p.constraintsAdded = true →
       angleCount (ToxicPlant.growPlant p).physics = angleCount p.physics ∧
       (ToxicPlant.growPlant p).constraintsAdded = true) ∧
    (p.constraintsAdded = false → p.lastSegmentIndex < p.segments.length →
       ((ToxicPlant.growPlant p).constraintsAdded = true ↔
         (p.segments.length : ℚ) * (8/10) ≤ ((growBatch p).lastSegmentIndex : ℚ))) := by
  constructor
  · intro hflag
    unfold ToxicPlant.growPlant
    split
    · exact ⟨rfl, hflag⟩
    · have hflag2 : (growBatch p).constraintsAdded = true := by
        rw [growBatch_constraintsAdded]; exact hflag
      rw [constraintPhase_of_flag _ hflag2]
      exact ⟨by rw [fruitPhase_angleCount, angleCount_growBatch],
             by rw [fruitPhase_constraintsAdded]; exact hflag2⟩
  · intro hflag hlast
    unfold ToxicPlant.growPlant
    rw [if_neg (by omega)]
    rw [fruitPhase_constraintsAdded]
    unfold constraintPhase
    split_ifs with hc
    · constructor
      · intro _
        have hthr := hc.1
        rw [growBatch_segments] at hthr
        exact hthr
      · intro _
        rfl
    · have hfalse : (growBatch p).constraintsAdded = false := by
        rw [growBatch_constraintsAdded]; exact hflag
      have hnotthr : ¬ ((growBatch p).segments.length : ℚ) * (8/10) ≤
          ((growBatch p).lastSegmentIndex : ℚ) :=
        fun hthr => hc ⟨hthr, hfalse⟩
      rw [growBatch_segments] at hnotthr
      constructor
      · intro habs
        rw [hfalse] at habs
        exact absurd habs (by decide)
      · intro hthr
        exact absurd hthr hnotthr

/-- C9 witness: the once-guard applied to a flagged one-segment plant
and the firing condition applied to the same plant unflagged. -/
theorem c9_angle_constraints_once_witness :
    pW9a.constraintsAdded = true ∧
    (angleCount (ToxicPlant.growPlant pW9a).physics = angleCount pW9a.physics ∧
     (ToxicPlant.growPlant pW9a).constraintsAdded = true) ∧
    pW9b.constraintsAdded = false ∧
    pW9b.lastSegmentIndex < pW9b.segments.length ∧
    ((ToxicPlant.growPlant pW9b).constraintsAdded = true ↔
      (pW9b.segments.length : ℚ) * (8/10) ≤ ((growBatch pW9b).lastSegmentIndex : ℚ)) :=
  ⟨rfl, (c9_angle_constraints_once pW9a).1 rfl, rfl, by decide,
   (c9_angle_constraints_once pW9b).2 rfl (by decide)⟩
